import Mathlib

/-!
Shallow embedding of the type model (`src/module.rs`) and the deriving
engine (`src/deriving.rs`) of a Haskell-like compiler front end, together
with theorems settling the specification claims about type equality,
tuple-type construction, and `Eq`/`Ord` instance generation.

Interned strings are modelled as `String`, machine integers as `Int`/`Nat`,
`~[T]`/`Vec<T>` as `List T`, and the mutable `HashMap` threaded through
`type_eq` as an association list keyed by full `TypeVariable` equality
(the source `HashMap` compares keys with the derived `Eq`, which uses all
fields).
-/

/-- `Kind` from `src/module.rs`: `KindFunction(Box<Kind>, Box<Kind>)` or `StarKind`. -/
inductive Kind where
  | KindFunction : Kind → Kind → Kind
  | StarKind : Kind
deriving DecidableEq, Repr

/-- Helper for `Kind.new`: the loop `for _ in range(1, v) { kind = KindFunction(star, kind) }`
expressed over the iteration count. -/
def kind_iter : Nat → Kind
  | 0 => .StarKind
  | n + 1 => .KindFunction .StarKind (kind_iter n)

/-- `Kind::new(v)` from `src/module.rs`: starts at `StarKind` and wraps it
`v - 1` times as the result of a `KindFunction` from `StarKind`. -/
def Kind.new (v : Int) : Kind := kind_iter (v - 1).toNat

/-- `TypeVariable` from `src/module.rs`: interned identifier, kind, and age. -/
structure TypeVariable where
  id : String
  kind : Kind
  age : Int
deriving DecidableEq, Repr

/-- `TypeConstructor` from `src/module.rs`: interned name and kind. -/
structure TypeConstructor where
  name : String
  kind : Kind
deriving DecidableEq, Repr

/-- `Type` from `src/module.rs` (named `Ty` because `Type` is reserved in Lean):
variables, constructors, left-associative applications, and `Generic`-marked
(universally quantified) variables. -/
inductive Ty where
  | TypeVariable : TypeVariable → Ty
  | TypeConstructor : TypeConstructor → Ty
  | TypeApplication : Ty → Ty → Ty
  | Generic : TypeVariable → Ty
deriving DecidableEq, Repr

/-- `Kind` replacement at the result position of a `KindFunction`, as performed
by writing through `mut_kind` on a `TypeApplication` (the source `fail!`s when
the kind is not a `KindFunction`; that arm is modelled as the identity). -/
def Kind.with_result : Kind → Kind → Kind
  | .KindFunction a _, k => .KindFunction a k
  | .StarKind, _ => .StarKind

/-- `Type::kind` from `src/module.rs`: the kind stored at the head of the type
(the source `fail!`s when an application head has a non-arrow kind; that arm
returns `StarKind` here and is never reached by the code under study). -/
def Ty.kind : Ty → Kind
  | .TypeVariable v => v.kind
  | .TypeConstructor c => c.kind
  | .TypeApplication l _ =>
      (match Ty.kind l with
       | .KindFunction _ k => k
       | .StarKind => .StarKind)
  | .Generic v => v.kind

/-- Writing a kind through `Type::mut_kind` from `src/module.rs`: on a
variable, constructor or generic it replaces the stored kind; on an
application it replaces the result component of the head's arrow kind. -/
def Ty.set_kind : Ty → Kind → Ty
  | .TypeVariable v, k => .TypeVariable { v with kind := k }
  | .TypeConstructor c, k => .TypeConstructor { c with kind := k }
  | .TypeApplication l r, k => .TypeApplication (Ty.set_kind l (Kind.with_result (Ty.kind l) k)) r
  | .Generic v, k => .Generic { v with kind := k }

/-- `Type::new_var_kind` from `src/module.rs`. -/
def Ty.new_var_kind (id : String) (kind : Kind) : Ty :=
  .TypeVariable { id := id, kind := kind, age := 0 }

/-- `Type::new_var` from `src/module.rs`. -/
def Ty.new_var (id : String) : Ty := Ty.new_var_kind id .StarKind

/-- `Type::new_type_kind` from `src/module.rs`: set the head's kind from the
argument count, then apply it to the arguments left to right. -/
def Ty.new_type_kind (result : Ty) (types : List Ty) : Ty :=
  types.foldl (fun r t => Ty.TypeApplication r t)
    (Ty.set_kind result (Kind.new ((types.length : Int) + 1)))

/-- `Type::new_op` from `src/module.rs`: a fully applied type constructor. -/
def Ty.new_op (name : String) (types : List Ty) : Ty :=
  Ty.new_type_kind (.TypeConstructor { name := name, kind := .StarKind }) types

/-- `function_type_` from `src/module.rs`: `new_op("->", [func, arg])`. -/
def function_type_ (func : Ty) (arg : Ty) : Ty := Ty.new_op "->" [func, arg]

/-- `bool_type` from `src/module.rs`. -/
def bool_type : Ty := Ty.new_op "Bool" []

/-- `int_type` from `src/module.rs`. -/
def int_type : Ty := Ty.new_op "Int" []

/-- `tuple_name` from `src/module.rs`: an opening parenthesis, `n - 1` commas,
and a closing parenthesis. -/
def tuple_name (n : Nat) : String :=
  "(" ++ String.mk (List.replicate (n - 1) ',') ++ ")"

/-- `tuple_type` from `src/module.rs`. The source asserts `n < 26`; the
assertion failure is modelled as `none`. The generic variable for position
`i` is the single letter `('a' as u8 + i) as char`. -/
def tuple_type (n : Nat) : Option (String × Ty) :=
  if n < 26 then
    let var_list := (List.range n).map (fun i =>
      Ty.Generic { id := String.singleton (Char.ofNat (97 + i)), kind := .StarKind, age := 0 })
    let ident := tuple_name n
    let typ0 := Ty.new_op ident var_list
    let typ := (List.range n).foldr (fun i t =>
      function_type_ (Ty.Generic { id := String.singleton (Char.ofNat (97 + i)), kind := .StarKind, age := 0 }) t) typ0
    some (ident, typ)
  else
    none

/-- `try_get_function` from `src/module.rs`: recognizes
`Application(Application(Constructor "->", arg), result)` and returns the
argument/result pair. -/
def try_get_function : Ty → Option (Ty × Ty)
  | .TypeApplication (.TypeApplication (.TypeConstructor op) arg) result =>
      if op.name = "->" then some (arg, result) else none
  | _ => none

/-- Association-list lookup standing in for `HashMap::find` keyed by the
derived equality on `TypeVariable`. -/
def mlookup (m : List (TypeVariable × TypeVariable)) (k : TypeVariable) : Option TypeVariable :=
  match m with
  | [] => none
  | p :: rest => if p.1 = k then some p.2 else mlookup rest k

/-- `type_eq` from `src/module.rs`. The source arm
`(&TypeVariable(ref r), &TypeVariable(ref l))` binds the left-hand variable
as `r` and the right-hand variable as `l`; it looks the right-hand variable
up in the mapping, compares the recorded partner's `id` with the left-hand
variable's `id`, and otherwise records right ↦ left. The mutable mapping is
threaded through explicitly, including the short-circuit of `&&`. -/
def type_eq (m : List (TypeVariable × TypeVariable)) :
    Ty → Ty → Bool × List (TypeVariable × TypeVariable)
  | .TypeConstructor l, .TypeConstructor r => (l.name == r.name, m)
  | .TypeVariable lv, .TypeVariable rv =>
      (match mlookup m rv with
       | some x => (x.id == lv.id, m)
       | none => (true, (rv, lv) :: m))
  | .TypeApplication l1 r1, .TypeApplication l2 r2 =>
      let p := type_eq m l1 l2
      if p.1 then type_eq p.2 r1 r2 else (false, p.2)
  | _, _ => (false, m)

/-- `PartialEq for Type` from `src/module.rs`: run `type_eq` with an empty
mapping. -/
def Ty.eq (lhs rhs : Ty) : Bool := (type_eq [] lhs rhs).1

/-- `extract_applied_type` from `src/deriving.rs`: strip applications down to
the head. -/
def extract_applied_type : Ty → Ty
  | .TypeApplication l _ => extract_applied_type l
  | t => t

/-- `Type::ctor().name` as used by `make_binop` in `src/deriving.rs` (the
source `fail!`s on a non-constructor; that arm returns `""` and is never
reached for well-formed data definitions). -/
def Ty.ctor_name : Ty → String
  | .TypeConstructor c => c.name
  | _ => ""

/-- `ArgIterator` from `src/deriving.rs`, as the list of all peeled argument
types: each step takes the argument component of `try_get_function` and
continues on the result component, stopping at the first non-arrow residue. -/
def arg_iterator : Ty → List Ty
  | .TypeApplication (.TypeApplication (.TypeConstructor op) arg) result =>
      if op.name = "->" then arg :: arg_iterator result else []
  | _ => []

/-- `Name` from the renamer (declared outside `src/`, used by
`src/deriving.rs` as `Name { name, uid }`): an interned string plus a
uniquifying id. -/
structure Name where
  name : String
  uid : Nat
deriving DecidableEq, Repr

/-- Modelled from the spec: the fresh-name supply (`NameSupply::anonymous`,
declared outside `src/`) — "`anonymous() -> Name`, guaranteed globally
unique within a compilation run". The supply is a counter; each call yields
a name with a fresh `uid` and advances the counter. -/
def anonymous (s : Nat) : Name × Nat := ({ name := "_a", uid := s }, s + 1)

/-- `Constraint` from `src/module.rs`: class name plus type variables (the
source field names `class` and `variables` are Lean keywords/commands, hence
the underscores). -/
structure Constraint where
  class_ : String
  variables_ : List TypeVariable
deriving DecidableEq, Repr

/-- `Qualified<T>` from `src/module.rs`: constraints plus a value. -/
structure Qualified (T : Type) where
  constraints : List Constraint
  value : T
deriving DecidableEq, Repr

/-- `Id<Name>` from the core AST (declared outside `src/`): a name together
with a qualified type, built by `Id::new(name, typ, constraints)`. -/
structure CId where
  name : Name
  typ : Ty
  constraints : List Constraint
deriving DecidableEq, Repr

/-- Modelled from the spec: the core pattern sum type (declared outside
`src/`) — "number literal, identifier/bind, constructor-application,
wildcard". `src/deriving.rs` builds `ConstructorPattern` with a list of
field binders, `IdentifierPattern`, and `WildCardPattern`. -/
inductive CPattern where
  | ConstructorPattern : CId → List CId → CPattern
  | IdentifierPattern : CId → CPattern
  | WildCardPattern : CPattern
deriving DecidableEq, Repr

/-- Modelled from the spec: the core expression sum type (declared outside
`src/`), restricted to the node kinds `src/deriving.rs` constructs:
identifiers, applications, single-argument lambdas binding an `Id`, and
case expressions whose alternatives pair a pattern with an expression. -/
inductive CExpr where
  | Identifier : CId → CExpr
  | Apply : CExpr → CExpr → CExpr
  | Lambda : CId → CExpr → CExpr
  | Case : CExpr → List (CPattern × CExpr) → CExpr
deriving Repr

/-- Modelled from the spec: the typed-expression interface `get_type` of the
core AST (declared outside `src/`): an identifier carries its `Id`'s type;
an application's type is the result component of the function's arrow type;
a lambda reports its argument's type (the source marks the synthesized
lambda types with a `TODO`); a case reports its first alternative's type. -/
def get_type : CExpr → Ty
  | .Identifier i => i.typ
  | .Apply f _ =>
      (match get_type f with
       | .TypeApplication _ r => r
       | t => t)
  | .Lambda arg _ => arg.typ
  | .Case _ alts =>
      (match alts with
       | (_, e) :: _ => get_type e
       | [] => Ty.TypeVariable { id := "a", kind := .StarKind, age := 0 })

/-- `Binding<Id<Name>>` from the core AST as used by `src/deriving.rs`:
a name and an expression. -/
structure CBinding where
  name : CId
  expression : CExpr
deriving Repr

/-- `Constructor<Name>` from `src/module.rs`. -/
structure Constructor where
  name : Name
  typ : Qualified Ty
  tag : Int
  arity : Int
deriving Repr

/-- `DataDefinition<Name>` as consumed by `src/deriving.rs`: constructors,
the data type's qualified type, the parameter-position map, and the list of
requested derivations (`data.deriving`; `deriving` is a Lean keyword, hence
the trailing underscore). -/
structure DataDefinition where
  constructors : List Constructor
  typ : Qualified Ty
  parameters : List (String × Int)
  deriving_ : List String

/-- `fn id(s, typ)` from `src/deriving.rs`: an `Id` with uid 0 and no
constraints. -/
def mk_id (s : String) (typ : Ty) : CId :=
  { name := { name := s, uid := 0 }, typ := typ, constraints := [] }

/-- `true_expr` from `src/deriving.rs`. -/
def true_expr : CExpr :=
  .Identifier { name := { name := "True", uid := 0 }, typ := bool_type, constraints := [] }

/-- The `False` identifier built inline by `match_same_constructors` in
`src/deriving.rs`. -/
def false_expr : CExpr :=
  .Identifier { name := { name := "False", uid := 0 }, typ := bool_type, constraints := [] }

/-- `compare_tags` from `src/deriving.rs`: the builtin `#compare_tags` of
type `a -> a -> Ordering` applied to the left then the right expression. -/
def compare_tags (lhs rhs : CExpr) : CExpr :=
  .Apply (.Apply (.Identifier
    { name := { name := "#compare_tags", uid := 0 },
      typ := function_type_ (Ty.new_var "a") (function_type_ (Ty.new_var "a") (Ty.new_op "Ordering" [])),
      constraints := [] }) lhs) rhs

/-- `binop` from `src/deriving.rs`: the operator identifier is annotated with
the function type `lhs.get_type() -> rhs.get_type() -> return_type` and
applied to the two operands. -/
def binop (op : String) (lhs rhs : CExpr) (return_type : Ty) : CExpr :=
  .Apply (.Apply (.Identifier
    { name := { name := op, uid := 0 },
      typ := function_type_ (get_type lhs) (function_type_ (get_type rhs) return_type),
      constraints := [] }) lhs) rhs

/-- `bool_binop` from `src/deriving.rs`: `binop` with return type `Bool`. -/
def bool_binop (op : String) (lhs rhs : CExpr) : CExpr :=
  binop op lhs rhs bool_type

/-- `DerivingGen::eq_or_default` from `src/deriving.rs`: a case on `cmp`
with an `EQ` constructor alternative returning `def_` and an identifier
alternative binding a fresh name and returning it unchanged. The name
supply is threaded explicitly. -/
def eq_or_default (s : Nat) (cmp def_ : CExpr) : CExpr × Nat :=
  let match_id : CId :=
    { name := (anonymous s).1, typ := Ty.new_op "Ordering" [], constraints := [] }
  (.Case cmp
    [(.ConstructorPattern (mk_id "EQ" (Ty.new_op "Ordering" [])) [], def_),
     (.IdentifierPattern match_id, .Identifier match_id)],
   (anonymous s).2)

/-- `DerivingGen::eq_fields` from `src/deriving.rs`: zero fields give
`true_expr`; otherwise a left fold starting from the first pair's `==`
test, each later pair's test joined with `&&`. The source indexes
`args_r[0]` after checking only `args_l`; both lists always have the same
length at the call site. -/
def eq_fields (args_l args_r : List CId) : CExpr :=
  match args_l, args_r with
  | al :: ls, ar :: rs =>
      (List.zip ls rs).foldl
        (fun acc lr => bool_binop "&&" acc (bool_binop "==" (.Identifier lr.1) (.Identifier lr.2)))
        (bool_binop "==" (.Identifier al) (.Identifier ar))
  | _, _ => true_expr

/-- `eq_fields` wrapped as a supply-threading callback, as passed by
`generate_eq` (the closure consumes no fresh names). -/
def eq_fields_s (s : Nat) (args_l args_r : List CId) : CExpr × Nat :=
  (eq_fields args_l args_r, s)

/-- `DerivingGen::ord_fields` from `src/deriving.rs`: zero fields give the
`EQ` ordering constant; otherwise the zipped field pairs are reversed, the
last pair becomes `binop "compare" … Ordering`, and a left fold over the
remaining (earlier) pairs wraps the accumulator as the default of
`eq_or_default` applied to `bool_binop "compare"` of that pair. The source
`unwrap`s the first reversed pair after checking only `args_l`; both lists
always have the same length at the call site. -/
def ord_fields (s : Nat) (args_l args_r : List CId) : CExpr × Nat :=
  match (List.zip args_l args_r).reverse with
  | [] => (.Identifier (mk_id "EQ" (Ty.new_op "Ordering" [])), s)
  | (x, y) :: rest =>
      rest.foldl
        (fun acc lr =>
          eq_or_default acc.2 (bool_binop "compare" (.Identifier lr.1) (.Identifier lr.2)) acc.1)
        (binop "compare" (.Identifier x) (.Identifier y) (Ty.new_op "Ordering" []), s)

/-- One list of fresh field binders in `match_same_constructors` from
`src/deriving.rs`: one `Id::new(self.name_supply.anonymous(), arg, constraints)`
per peeled argument type, consuming the supply left to right. -/
def fresh_ids (s : Nat) (tys : List Ty) (cs : List Constraint) : List CId × Nat :=
  match tys with
  | [] => ([], s)
  | t :: ts =>
      let rest := fresh_ids (anonymous s).2 ts cs
      ({ name := (anonymous s).1, typ := t, constraints := cs } :: rest.1, rest.2)

/-- The constructor identifier built by `match_same_constructors`: the
`ArgIterator` copy is left un-advanced, so `iter.typ` is the constructor's
full curried type. -/
def ctor_id (c : Constructor) : CId :=
  { name := c.name, typ := c.typ.value, constraints := c.typ.constraints }

/-- One alternative of `match_same_constructors` from `src/deriving.rs`:
fresh left binders, fresh right binders, the callback's expression, and the
nested case on the right parameter with the same-constructor alternative
and the `False` wildcard alternative. -/
def constructor_alt (s : Nat) (c : Constructor) (id_r : CId)
    (f : Nat → List CId → List CId → CExpr × Nat) : (CPattern × CExpr) × Nat :=
  let pl := fresh_ids s (arg_iterator c.typ.value) c.typ.constraints
  let pr := fresh_ids pl.2 (arg_iterator c.typ.value) c.typ.constraints
  let pe := f pr.2 pl.1 pr.1
  ((.ConstructorPattern (ctor_id c) pl.1,
    .Case (.Identifier id_r)
      [(.ConstructorPattern (ctor_id c) pr.1, pe.1),
       (.WildCardPattern, false_expr)]),
   pe.2)

/-- The sequential map of `match_same_constructors` over the constructor
list, threading the name supply. -/
def msc_go (id_r : CId) (f : Nat → List CId → List CId → CExpr × Nat) :
    Nat → List Constructor → List (CPattern × CExpr) × Nat
  | s, [] => ([], s)
  | s, c :: cs =>
      let p := constructor_alt s c id_r f
      let q := msc_go id_r f p.2 cs
      (p.1 :: q.1, q.2)

/-- `DerivingGen::match_same_constructors` from `src/deriving.rs`. -/
def match_same_constructors (s : Nat) (data : DataDefinition) (id_r : CId)
    (f : Nat → List CId → List CId → CExpr × Nat) : List (CPattern × CExpr) × Nat :=
  msc_go id_r f s data.constructors

/-- Modelled from the spec: `encode_binding_identifier` (declared outside
`src/`) — "a globally unique function name (deterministic combination of
the data type's own name and the class method name)". -/
def encode_binding_identifier (data_name funcname : String) : String :=
  "#" ++ data_name ++ funcname

/-- `DerivingGen::make_binop` from `src/deriving.rs`: two fresh parameters
typed with the data type's qualified type, the callback's body wrapped in a
two-level curried lambda, and a binding named by `encode_binding_identifier`
over the data type's head constructor name. -/
def make_binop (s : Nat) (funcname : String) (data : DataDefinition)
    (func : Nat → CId → CId → CExpr × Nat) : CBinding × Nat :=
  let arg_l := (anonymous s).1
  let arg_r := (anonymous (anonymous s).2).1
  let s2 := (anonymous (anonymous s).2).2
  let id_r : CId := { name := arg_r, typ := data.typ.value, constraints := data.typ.constraints }
  let id_l : CId := { name := arg_l, typ := data.typ.value, constraints := data.typ.constraints }
  let p := func s2 id_l id_r
  let lambda_expr := CExpr.Lambda id_l (.Lambda id_r p.1)
  ({ name :=
      { name :=
          { name := encode_binding_identifier (Ty.ctor_name (extract_applied_type data.typ.value)) funcname,
            uid := 0 },
        typ := get_type lambda_expr,
        constraints := [] },
     expression := lambda_expr },
   p.2)

/-- `DerivingGen::generate_eq` from `src/deriving.rs`: a case on the left
parameter over the `match_same_constructors` alternatives with `eq_fields`
as the field-wise callback. -/
def generate_eq (s : Nat) (data : DataDefinition) : CBinding × Nat :=
  make_binop s "==" data (fun t id_l id_r =>
    let p := match_same_constructors t data id_r eq_fields_s
    (.Case (.Identifier id_l) p.1, p.2))

/-- `DerivingGen::generate_ord` from `src/deriving.rs`: the
`match_same_constructors` case on the left parameter (with `ord_fields` as
callback) becomes the equal-tags default of `eq_or_default` applied to the
`compare_tags` of the two parameters. -/
def generate_ord (s : Nat) (data : DataDefinition) : CBinding × Nat :=
  make_binop s "compare" data (fun t id_l id_r =>
    let p := match_same_constructors t data id_r ord_fields
    eq_or_default p.2 (compare_tags (.Identifier id_l) (.Identifier id_r))
      (.Case (.Identifier id_l) p.1))

/-- The loop body of `generate_deriving` from `src/deriving.rs`: `"Eq"` and
`"Ord"` append their generated binding; any other class name stops the loop
with the `fail!` report (the fatal, unrecoverable `fail!` is modelled as an
error value returned alongside the bindings accumulated so far). -/
def gen_loop (d : DataDefinition) : Nat → List CBinding → List String → List CBinding × Option String
  | _, bs, [] => (bs, none)
  | s, bs, x :: rest =>
      if x = "Eq" then
        gen_loop d (generate_eq s d).2 (bs ++ [(generate_eq s d).1]) rest
      else if x = "Ord" then
        gen_loop d (generate_ord s d).2 (bs ++ [(generate_ord s d).1]) rest
      else
        (bs, some ("Cannot generate instance for class " ++ x))

/-- `generate_deriving` from `src/deriving.rs`: a fresh `DerivingGen` (so a
fresh name supply starting at 0) processes the data definition's deriving
list in order. -/
def generate_deriving (bs : List CBinding) (d : DataDefinition) : List CBinding × Option String :=
  gen_loop d 0 bs d.deriving_

/-- A type is free of `Generic` nodes. `type_eq`'s catch-all arm rejects any
pair whose constructors are not both `TypeConstructor`, both `TypeVariable`
or both `TypeApplication`, so `Generic` nodes always compare unequal. -/
def no_generic : Ty → Bool
  | .Generic _ => false
  | .TypeApplication l r => no_generic l && no_generic r
  | _ => true

/-- A systematic renaming of the variables of a type: every variable node
(`TypeVariable` or `Generic`) is mapped through `f`. -/
def rename_vars (f : TypeVariable → TypeVariable) : Ty → Ty
  | .TypeVariable v => .TypeVariable (f v)
  | .TypeConstructor c => .TypeConstructor c
  | .TypeApplication l r => .TypeApplication (rename_vars f l) (rename_vars f r)
  | .Generic v => .Generic (f v)

/-- Invariant on the `type_eq` mapping when the right-hand type is the
`f`-renaming of the left-hand type: every recorded pair maps `f x` back to
`x`. -/
def InvMap (f : TypeVariable → TypeVariable) (m : List (TypeVariable × TypeVariable)) : Prop :=
  ∀ p ∈ m, p.1 = f p.2

lemma mlookup_mem {m : List (TypeVariable × TypeVariable)} {k v : TypeVariable}
    (h : mlookup m k = some v) : (k, v) ∈ m := by
  induction m with
  | nil => simp [mlookup] at h
  | cons p rest ih =>
    rw [mlookup] at h
    by_cases hp : p.1 = k
    · rw [if_pos hp] at h
      have hv : p.2 = v := Option.some.inj h
      subst hv
      subst hp
      simp
    · rw [if_neg hp] at h
      exact List.mem_cons_of_mem _ (ih h)

lemma type_eq_rename_aux (f : TypeVariable → TypeVariable) (hf : Function.Injective f) :
    ∀ (T : Ty) (m : List (TypeVariable × TypeVariable)), InvMap f m → no_generic T = true →
      (type_eq m T (rename_vars f T)).1 = true
        ∧ InvMap f (type_eq m T (rename_vars f T)).2 := by
  intro T
  induction T with
  | TypeVariable v =>
    intro m hm _
    cases hl : mlookup m (f v) with
    | some x =>
      have hmem : (f v, x) ∈ m := mlookup_mem hl
      have hx : v = x := hf (hm _ hmem)
      subst hx
      simp [rename_vars, type_eq, hl, hm]
    | none =>
      refine ⟨by simp [rename_vars, type_eq, hl], ?_⟩
      simp only [rename_vars, type_eq, hl]
      intro p hp
      rcases List.mem_cons.mp hp with h | h
      · subst h; rfl
      · exact hm _ h
  | TypeConstructor c =>
    intro m hm _
    simp [rename_vars, type_eq, hm]
  | TypeApplication l r ihl ihr =>
    intro m hm hg
    rw [no_generic, Bool.and_eq_true] at hg
    obtain ⟨h1, h2⟩ := ihl m hm hg.1
    obtain ⟨h3, h4⟩ := ihr _ h2 hg.2
    simp only [rename_vars, type_eq]
    rw [h1]
    exact ⟨by simpa using h3, by simpa using h4⟩
  | Generic v =>
    intro m _ hg
    simp [no_generic] at hg

/-- C1 (corrected): the claim asserts `T == T` for every type, including
types containing `Generic`-marked variables; but `type_eq` has no arm for a
pair of `Generic` nodes, so its catch-all returns `false` and a
`Generic`-containing type is not equal to itself. -/
theorem c1_generic_self_eq_false :
    Ty.eq (Ty.Generic { id := "a", kind := .StarKind, age := 0 })
      (Ty.Generic { id := "a", kind := .StarKind, age := 0 }) = false := by decide

/-- C1 (amended): for every type `T` containing no `Generic` node and every
systematic injective renaming `f` of its variables, `Type::eq` returns
`true` on `T` and the renamed type (in particular `T == T` via the identity
renaming); the original claim's extension to `Generic`-containing types
fails. -/
theorem c1_alpha_renaming_no_generic (f : TypeVariable → TypeVariable)
    (hf : Function.Injective f) (T : Ty) (hT : no_generic T = true) :
    Ty.eq T (rename_vars f T) = true := by
  have h := type_eq_rename_aux f hf T [] (by intro p hp; simp at hp) hT
  simpa [Ty.eq] using h.1

/-- Witness for C1's amended theorem at the identity renaming on `a -> b`. -/
theorem c1_alpha_renaming_no_generic_witness :
    Function.Injective (fun v : TypeVariable => v)
      ∧ no_generic (function_type_ (Ty.new_var "a") (Ty.new_var "b")) = true
      ∧ Ty.eq (function_type_ (Ty.new_var "a") (Ty.new_var "b"))
          (rename_vars (fun v => v) (function_type_ (Ty.new_var "a") (Ty.new_var "b"))) = true :=
  ⟨fun _ _ h => h, by decide,
   c1_alpha_renaming_no_generic (fun v => v) (fun _ _ h => h) _ (by decide)⟩

/-- C5: whenever the two right-hand variables of `j -> k` are distinct and
each is paired with the same left-hand variable of `i -> i`, the
one-directional correspondence of `type_eq` accepts the pair — even though
the two types are not alpha-equivalent, as the reversed comparison (which
pairs the single right-hand variable `i` with both `j` and `k`) rejects. -/
theorem c5_one_directional_accepts (i j k : String) (h : j ≠ k) :
    Ty.eq (function_type_ (Ty.new_var i) (Ty.new_var i))
        (function_type_ (Ty.new_var j) (Ty.new_var k)) = true
      ∧ Ty.eq (function_type_ (Ty.new_var j) (Ty.new_var k))
          (function_type_ (Ty.new_var i) (Ty.new_var i)) = false := by
  constructor <;>
    simp [Ty.eq, function_type_, Ty.new_op, Ty.new_type_kind, Ty.set_kind,
      Ty.new_var, Ty.new_var_kind, type_eq, mlookup, Kind.new, kind_iter,
      TypeVariable.mk.injEq, h, Ne.symm h]

/-- Witness for C5 at `a -> a` against `b -> c`. -/
theorem c5_one_directional_accepts_witness :
    ("b" : String) ≠ "c"
      ∧ Ty.eq (function_type_ (Ty.new_var "a") (Ty.new_var "a"))
          (function_type_ (Ty.new_var "b") (Ty.new_var "c")) = true
      ∧ Ty.eq (function_type_ (Ty.new_var "b") (Ty.new_var "c"))
          (function_type_ (Ty.new_var "a") (Ty.new_var "a")) = false :=
  ⟨by decide,
   (c5_one_directional_accepts "a" "b" "c" (by decide)).1,
   (c5_one_directional_accepts "a" "b" "c" (by decide)).2⟩

lemma ord_fields_reverse_cons {s : Nat} {args_l args_r : List CId} {x y : CId}
    {rest : List (CId × CId)}
    (h : (List.zip args_l args_r).reverse = (x, y) :: rest) :
    ord_fields s args_l args_r
      = rest.foldl
          (fun acc lr =>
            eq_or_default acc.2 (bool_binop "compare" (.Identifier lr.1) (.Identifier lr.2)) acc.1)
          (binop "compare" (.Identifier x) (.Identifier y) (Ty.new_op "Ordering" []), s) := by
  unfold ord_fields
  rw [h]

lemma ord_fields_nil (s : Nat) (args_r : List CId) :
    ord_fields s [] args_r = (.Identifier (mk_id "EQ" (Ty.new_op "Ordering" [])), s) := by
  unfold ord_fields
  simp

lemma ord_fields_single (s : Nat) (x y : CId) :
    ord_fields s [x] [y]
      = (binop "compare" (.Identifier x) (.Identifier y) (Ty.new_op "Ordering" []), s) := by
  have h : (List.zip [x] [y]).reverse = (x, y) :: ([] : List (CId × CId)) := rfl
  exact ord_fields_reverse_cons h

lemma ord_fields_cons (s : Nat) (l r : CId) (ls rs : List CId)
    (hlen : ls.length = rs.length) (hne : ls ≠ []) :
    ord_fields s (l :: ls) (r :: rs)
      = eq_or_default (ord_fields s ls rs).2
          (bool_binop "compare" (.Identifier l) (.Identifier r)) (ord_fields s ls rs).1 := by
  have hznil : List.zip ls rs ≠ [] := by
    cases ls with
    | nil => exact absurd rfl hne
    | cons a ls' =>
      cases rs with
      | nil => simp at hlen
      | cons b rs' => simp [List.zip_cons_cons]
  obtain ⟨q, t, hrev⟩ : ∃ q t, (List.zip ls rs).reverse = q :: t := by
    cases hq : (List.zip ls rs).reverse with
    | nil => exact absurd (List.reverse_eq_nil_iff.mp hq) hznil
    | cons q t => exact ⟨q, t, rfl⟩
  obtain ⟨x, y⟩ := q
  have houter : (List.zip (l :: ls) (r :: rs)).reverse = (x, y) :: (t ++ [(l, r)]) := by
    rw [List.zip_cons_cons, List.reverse_cons, hrev]
    rfl
  rw [ord_fields_reverse_cons houter, ord_fields_reverse_cons hrev, List.foldl_append]
  rfl

/-- C3: `ord_fields` on zero field pairs is the `EQ` ordering constant; on
`n ≥ 1` pairs it folds right to left — a single pair becomes its `compare`,
and with more pairs the earlier (head) pair wraps the accumulated result of
the later pairs as the equal-branch default of `eq_or_default` applied to
that pair's `compare`, so the first field is the most significant key. -/
theorem c3_ord_fields_fold :
    (∀ (s : Nat) (args_r : List CId),
        ord_fields s [] args_r = (.Identifier (mk_id "EQ" (Ty.new_op "Ordering" [])), s))
      ∧ (∀ (s : Nat) (x y : CId),
          ord_fields s [x] [y]
            = (binop "compare" (.Identifier x) (.Identifier y) (Ty.new_op "Ordering" []), s))
      ∧ (∀ (s : Nat) (l r : CId) (ls rs : List CId), ls.length = rs.length → ls ≠ [] →
          ord_fields s (l :: ls) (r :: rs)
            = eq_or_default (ord_fields s ls rs).2
                (bool_binop "compare" (.Identifier l) (.Identifier r)) (ord_fields s ls rs).1) :=
  ⟨ord_fields_nil, ord_fields_single, ord_fields_cons⟩

/-- Sample field binder for witnesses. -/
def sid (n : String) : CId := mk_id n int_type

/-- Witness for C3 on two field pairs. -/
theorem c3_ord_fields_fold_witness :
    ([sid "y"] : List CId).length = ([sid "v"] : List CId).length
      ∧ ([sid "y"] : List CId) ≠ []
      ∧ ord_fields 0 [sid "x", sid "y"] [sid "u", sid "v"]
          = eq_or_default (ord_fields 0 [sid "y"] [sid "v"]).2
              (bool_binop "compare" (.Identifier (sid "x")) (.Identifier (sid "u")))
              (ord_fields 0 [sid "y"] [sid "v"]).1 :=
  ⟨rfl, by simp,
   c3_ord_fields_fold.2.2 0 (sid "x") (sid "u") [sid "y"] [sid "v"] rfl (by simp)⟩

/-- C7: in the `Ord` field tiebreak, every field pair except the last gets a
`compare` identifier annotated (via `bool_binop`) with result type `Bool`,
and only the last pair's `compare` identifier is annotated with result type
`Ordering` (and those two result types differ). -/
theorem c7_compare_result_types :
    (∀ (s : Nat) (l r : CId) (ls rs : List CId), ls.length = rs.length → ls ≠ [] →
        ord_fields s (l :: ls) (r :: rs)
          = eq_or_default (ord_fields s ls rs).2
              (CExpr.Apply (CExpr.Apply (CExpr.Identifier
                  { name := { name := "compare", uid := 0 },
                    typ := function_type_ l.typ (function_type_ r.typ bool_type),
                    constraints := [] }) (CExpr.Identifier l)) (CExpr.Identifier r))
              (ord_fields s ls rs).1)
      ∧ (∀ (s : Nat) (x y : CId),
          ord_fields s [x] [y]
            = (CExpr.Apply (CExpr.Apply (CExpr.Identifier
                  { name := { name := "compare", uid := 0 },
                    typ := function_type_ x.typ (function_type_ y.typ (Ty.new_op "Ordering" [])),
                    constraints := [] }) (CExpr.Identifier x)) (CExpr.Identifier y), s))
      ∧ bool_type ≠ Ty.new_op "Ordering" [] :=
  ⟨fun s l r ls rs hlen hne => ord_fields_cons s l r ls rs hlen hne,
   fun s x y => ord_fields_single s x y,
   by decide⟩

/-- Witness for C7 on two field pairs. -/
theorem c7_compare_result_types_witness :
    ([sid "g"] : List CId).length = ([sid "h"] : List CId).length
      ∧ ([sid "g"] : List CId) ≠ []
      ∧ ord_fields 0 [sid "f", sid "g"] [sid "e", sid "h"]
          = eq_or_default (ord_fields 0 [sid "g"] [sid "h"]).2
              (CExpr.Apply (CExpr.Apply (CExpr.Identifier
                  { name := { name := "compare", uid := 0 },
                    typ := function_type_ (sid "f").typ
                      (function_type_ (sid "e").typ bool_type),
                    constraints := [] }) (CExpr.Identifier (sid "f"))) (CExpr.Identifier (sid "e")))
              (ord_fields 0 [sid "g"] [sid "h"]).1 :=
  ⟨rfl, by simp,
   c7_compare_result_types.1 0 (sid "f") (sid "e") [sid "g"] [sid "h"] rfl (by simp)⟩

lemma msc_go_length (id_r : CId) (f : Nat → List CId → List CId → CExpr × Nat) :
    ∀ (cs : List Constructor) (s : Nat), (msc_go id_r f s cs).1.length = cs.length := by
  intro cs
  induction cs with
  | nil => intro s; rfl
  | cons c cs ih => intro s; simp [msc_go, ih]

lemma match_same_constructors_length (s : Nat) (data : DataDefinition) (id_r : CId)
    (f : Nat → List CId → List CId → CExpr × Nat) :
    (match_same_constructors s data id_r f).1.length = data.constructors.length :=
  msc_go_length id_r f data.constructors s

/-- C2: the body of the binding produced by `generate_ord` (inside the two
parameter lambdas) is `eq_or_default` applied to the `#compare_tags`
comparison of the left then the right parameter and to a case on the left
parameter with one alternative per constructor; and `eq_or_default` builds
a case with exactly two alternatives — an `EQ` constructor pattern
returning the default and an identifier pattern returning its own binder. -/
theorem c2_generate_ord_shape (s : Nat) (data : DataDefinition) :
    (∃ (id_l id_r : CId) (t : Nat) (alts : List (CPattern × CExpr)),
        (generate_ord s data).1.expression
          = CExpr.Lambda id_l (CExpr.Lambda id_r
              (eq_or_default t
                (compare_tags (CExpr.Identifier id_l) (CExpr.Identifier id_r))
                (CExpr.Case (CExpr.Identifier id_l) alts)).1)
          ∧ alts.length = data.constructors.length)
      ∧ (∀ (t : Nat) (cmp def_ : CExpr), ∃ m : CId,
          (eq_or_default t cmp def_).1
            = CExpr.Case cmp
                [(CPattern.ConstructorPattern (mk_id "EQ" (Ty.new_op "Ordering" [])) [], def_),
                 (CPattern.IdentifierPattern m, CExpr.Identifier m)]) := by
  constructor
  · refine ⟨_, _, _, _, rfl, ?_⟩
    exact match_same_constructors_length _ _ _ _
  · intro t cmp def_
    exact ⟨_, rfl⟩

lemma fresh_ids_length (cs : List Constraint) :
    ∀ (tys : List Ty) (s : Nat), ((fresh_ids s tys cs).1).length = tys.length := by
  intro tys
  induction tys with
  | nil => intro s; rfl
  | cons t ts ih => intro s; simp [fresh_ids, ih]

lemma fresh_ids_snd (cs : List Constraint) :
    ∀ (tys : List Ty) (s : Nat), (fresh_ids s tys cs).2 = s + tys.length := by
  intro tys
  induction tys with
  | nil => intro s; rfl
  | cons t ts ih =>
    intro s
    rw [fresh_ids]
    rw [ih]
    simp only [anonymous, List.length_cons]
    omega

lemma fresh_ids_uid (cs : List Constraint) :
    ∀ (tys : List Ty) (s : Nat) (a : CId), a ∈ (fresh_ids s tys cs).1 →
      s ≤ a.name.uid ∧ a.name.uid < s + tys.length := by
  intro tys
  induction tys with
  | nil => intro s a ha; simp [fresh_ids] at ha
  | cons t ts ih =>
    intro s a ha
    rw [fresh_ids] at ha
    rcases List.mem_cons.mp ha with h | h
    · subst h
      simp only [anonymous, List.length_cons]
      omega
    · have h2 := ih _ a h
      simp only [anonymous] at h2
      simp only [List.length_cons]
      omega

/-- The shape of one `match_same_constructors` alternative under the `Eq`
callback: the left pattern binds fresh field identifiers; the expression is
a nested case on the right parameter whose first alternative repeats the
same constructor with independently generated (disjoint) fresh binders and
evaluates `eq_fields`, and whose second alternative is a wildcard returning
the `False` literal. -/
def eq_alt_spec (id_r : CId) (c : Constructor) (alt : CPattern × CExpr) : Prop :=
  ∃ (args_l args_r : List CId),
    args_l.length = (arg_iterator c.typ.value).length
    ∧ args_r.length = (arg_iterator c.typ.value).length
    ∧ (∀ a ∈ args_l, ∀ b ∈ args_r, a.name ≠ b.name)
    ∧ alt = (CPattern.ConstructorPattern (ctor_id c) args_l,
        CExpr.Case (CExpr.Identifier id_r)
          [(CPattern.ConstructorPattern (ctor_id c) args_r, eq_fields args_l args_r),
           (CPattern.WildCardPattern, false_expr)])

lemma msc_go_eq_spec (id_r : CId) :
    ∀ (cs : List Constructor) (s : Nat),
      List.Forall₂ (eq_alt_spec id_r) cs (msc_go id_r eq_fields_s s cs).1 := by
  intro cs
  induction cs with
  | nil => intro s; exact List.Forall₂.nil
  | cons c cs ih =>
    intro s
    refine List.Forall₂.cons ?_ (ih _)
    refine ⟨(fresh_ids s (arg_iterator c.typ.value) c.typ.constraints).1,
            (fresh_ids (fresh_ids s (arg_iterator c.typ.value) c.typ.constraints).2
              (arg_iterator c.typ.value) c.typ.constraints).1,
            fresh_ids_length _ _ _, fresh_ids_length _ _ _, ?_, rfl⟩
    intro a ha b hb heq
    have h1 := fresh_ids_uid _ _ _ _ ha
    have h2 := fresh_ids_uid _ _ _ _ hb
    rw [fresh_ids_snd] at h2
    have : a.name.uid = b.name.uid := by rw [heq]
    omega

/-- C4: the binding generated for `Eq` is a two-parameter lambda whose body
cases on the left parameter with one alternative per constructor, each
alternative casing on the right parameter with the same constructor's
pattern over independently fresh binders (giving `eq_fields`) and a
wildcard alternative giving the `False` literal; `eq_fields` is `True` on
zero fields and a left fold of `==` tests joined by `&&` for `n ≥ 1`
fields, anchored at the first pair. -/
theorem c4_generate_eq_shape (s : Nat) (data : DataDefinition) :
    (∃ (id_l id_r : CId) (alts : List (CPattern × CExpr)),
        (generate_eq s data).1.expression
          = CExpr.Lambda id_l (CExpr.Lambda id_r (CExpr.Case (CExpr.Identifier id_l) alts))
          ∧ alts.length = data.constructors.length
          ∧ List.Forall₂ (eq_alt_spec id_r) data.constructors alts)
      ∧ eq_fields [] [] = true_expr
      ∧ (∀ l r : CId, eq_fields [l] [r] = bool_binop "==" (CExpr.Identifier l) (CExpr.Identifier r))
      ∧ (∀ (ls rs : List CId) (l r : CId), ls.length = rs.length → ls ≠ [] →
          eq_fields (ls ++ [l]) (rs ++ [r])
            = bool_binop "&&" (eq_fields ls rs)
                (bool_binop "==" (CExpr.Identifier l) (CExpr.Identifier r))) := by
  refine ⟨⟨_, _, _, rfl, match_same_constructors_length _ _ _ _, msc_go_eq_spec _ _ _⟩,
    rfl, fun l r => rfl, ?_⟩
  intro ls rs l r hlen hne
  obtain ⟨a, ls', rfl⟩ : ∃ a ls', ls = a :: ls' := by
    cases ls with
    | nil => exact absurd rfl hne
    | cons a ls' => exact ⟨a, ls', rfl⟩
  obtain ⟨b, rs', rfl⟩ : ∃ b rs', rs = b :: rs' := by
    cases rs with
    | nil => simp at hlen
    | cons b rs' => exact ⟨b, rs', rfl⟩
  have hlen' : ls'.length = rs'.length := by simpa using hlen
  simp only [List.cons_append, eq_fields]
  rw [List.zip_append hlen', List.foldl_append]
  rfl

/-- Sample data definition (`data Pair = Pair Int Int` deriving Eq, Ord)
used to instantiate witnesses. -/
def sample_data : DataDefinition :=
  { constructors := [
      { name := { name := "Pair", uid := 0 },
        typ := { constraints := [],
                 value := function_type_ int_type (function_type_ int_type (Ty.new_op "Pair" [])) },
        tag := 0, arity := 2 }],
    typ := { constraints := [], value := Ty.new_op "Pair" [] },
    parameters := [],
    deriving_ := ["Eq", "Ord"] }

/-- Witness for C4's field-fold clause on two field pairs. -/
theorem c4_generate_eq_shape_witness :
    ([sid "a1"] : List CId).length = ([sid "b1"] : List CId).length
      ∧ ([sid "a1"] : List CId) ≠ []
      ∧ eq_fields [sid "a1", sid "a2"] [sid "b1", sid "b2"]
          = bool_binop "&&" (eq_fields [sid "a1"] [sid "b1"])
              (bool_binop "==" (CExpr.Identifier (sid "a2")) (CExpr.Identifier (sid "b2"))) :=
  ⟨rfl, by simp,
   (c4_generate_eq_shape 0 sample_data).2.2.2 [sid "a1"] [sid "b1"] (sid "a2") (sid "b2")
     rfl (by simp)⟩

/-- The binding generated for one supported deriving request: `"Eq"` gives
`generate_eq`, any other supported name (`"Ord"`) gives `generate_ord`;
used to spell out which binding each request contributes. -/
def derive_one (s : Nat) (d : DataDefinition) (x : String) : CBinding × Nat :=
  if x = "Eq" then generate_eq s d else generate_ord s d

/-- The bindings contributed by a list of supported requests, processed in
list order while threading the name supply: one binding per request. -/
def derive_list (d : DataDefinition) (s : Nat) : List String → List CBinding
  | [] => []
  | x :: rest => (derive_one s d x).1 :: derive_list d (derive_one s d x).2 rest

lemma derive_list_length (d : DataDefinition) :
    ∀ (l : List String) (s : Nat), (derive_list d s l).length = l.length := by
  intro l
  induction l with
  | nil => intro s; rfl
  | cons x rest ih => intro s; simp [derive_list, ih]

lemma gen_loop_ok (d : DataDefinition) :
    ∀ (l : List String) (s : Nat) (bs : List CBinding),
      (∀ x ∈ l, x = "Eq" ∨ x = "Ord") →
      gen_loop d s bs l = (bs ++ derive_list d s l, none) := by
  intro l
  induction l with
  | nil => intro s bs _; simp [gen_loop, derive_list]
  | cons x rest ih =>
    intro s bs h
    have hx := h x (List.mem_cons_self x rest)
    have hrest : ∀ y ∈ rest, y = "Eq" ∨ y = "Ord" :=
      fun y hy => h y (List.mem_cons_of_mem x hy)
    rcases hx with hx | hx
    · subst hx
      rw [gen_loop, if_pos rfl, ih _ _ hrest]
      simp [derive_list, derive_one]
    · subst hx
      rw [gen_loop, if_neg (by decide), if_pos rfl, ih _ _ hrest]
      simp [derive_list, derive_one]

lemma gen_loop_fail (d : DataDefinition) (x : String) (post : List String)
    (hx1 : x ≠ "Eq") (hx2 : x ≠ "Ord") :
    ∀ (pre : List String) (s : Nat) (bs : List CBinding),
      (∀ y ∈ pre, y = "Eq" ∨ y = "Ord") →
      gen_loop d s bs (pre ++ x :: post)
        = (bs ++ derive_list d s pre, some ("Cannot generate instance for class " ++ x)) := by
  intro pre
  induction pre with
  | nil =>
    intro s bs _
    rw [List.nil_append, gen_loop, if_neg hx1, if_neg hx2]
    simp [derive_list]
  | cons y rest ih =>
    intro s bs h
    have hy := h y (List.mem_cons_self y rest)
    have hrest : ∀ z ∈ rest, z = "Eq" ∨ z = "Ord" :=
      fun z hz => h z (List.mem_cons_of_mem y hz)
    rcases hy with hy | hy
    · subst hy
      rw [List.cons_append, gen_loop, if_pos rfl, ih _ _ hrest]
      simp [derive_list, derive_one]
    · subst hy
      rw [List.cons_append, gen_loop, if_neg (by decide), if_pos rfl, ih _ _ hrest]
      simp [derive_list, derive_one]

/-- C8: on a deriving list containing only supported class names,
`generate_deriving` leaves the given bindings as an unchanged prefix,
reports no error, and appends via `derive_list` exactly one binding per
request of the deriving list, processed in the list's order from a fresh
name supply. -/
theorem c8_append_only (bs : List CBinding) (d : DataDefinition)
    (h : ∀ x ∈ d.deriving_, x = "Eq" ∨ x = "Ord") :
    (generate_deriving bs d).1 = bs ++ derive_list d 0 d.deriving_
      ∧ (generate_deriving bs d).2 = none
      ∧ (derive_list d 0 d.deriving_).length = d.deriving_.length := by
  have hg := gen_loop_ok d d.deriving_ 0 bs h
  refine ⟨?_, ?_, derive_list_length d _ _⟩
  · rw [generate_deriving, hg]
  · rw [generate_deriving, hg]

/-- Witness for C8 on `sample_data` (deriving list `["Eq", "Ord"]`). -/
theorem c8_append_only_witness :
    (∀ x ∈ sample_data.deriving_, x = "Eq" ∨ x = "Ord")
      ∧ (generate_deriving [] sample_data).1 = [] ++ derive_list sample_data 0 sample_data.deriving_
      ∧ (generate_deriving [] sample_data).2 = none
      ∧ (derive_list sample_data 0 sample_data.deriving_).length = sample_data.deriving_.length :=
  ⟨by decide, c8_append_only [] sample_data (by decide)⟩

/-- C6: when the deriving list reaches a class name outside the `{Eq, Ord}`
allow-list, `generate_deriving` halts with the fatal `fail!` report — which
contains the offending class name — appending no binding for that request
or any later one, while the bindings appended for the earlier requests
remain. -/
theorem c6_unsupported_class_error (bs : List CBinding) (d : DataDefinition)
    (pre post : List String) (x : String) (hd : d.deriving_ = pre ++ x :: post)
    (hpre : ∀ y ∈ pre, y = "Eq" ∨ y = "Ord") (hx1 : x ≠ "Eq") (hx2 : x ≠ "Ord") :
    (generate_deriving bs d).2 = some ("Cannot generate instance for class " ++ x)
      ∧ (generate_deriving bs d).1 = bs ++ derive_list d 0 pre
      ∧ (derive_list d 0 pre).length = pre.length := by
  have hg := gen_loop_fail d x post hx1 hx2 pre 0 bs hpre
  rw [generate_deriving, hd, hg]
  exact ⟨rfl, rfl, derive_list_length d _ _⟩

/-- Data definition requesting an unsupported derivation after `Eq`. -/
def bad_data : DataDefinition :=
  { constructors := sample_data.constructors,
    typ := sample_data.typ,
    parameters := [],
    deriving_ := ["Eq", "Show", "Ord"] }

/-- Witness for C6 on a deriving list `["Eq", "Show", "Ord"]`. -/
theorem c6_unsupported_class_error_witness :
    bad_data.deriving_ = ["Eq"] ++ "Show" :: ["Ord"]
      ∧ (∀ y ∈ (["Eq"] : List String), y = "Eq" ∨ y = "Ord")
      ∧ ("Show" : String) ≠ "Eq"
      ∧ ("Show" : String) ≠ "Ord"
      ∧ (generate_deriving [] bad_data).2 = some ("Cannot generate instance for class " ++ "Show")
      ∧ (generate_deriving [] bad_data).1 = [] ++ derive_list bad_data 0 ["Eq"]
      ∧ (derive_list bad_data 0 ["Eq"]).length = (["Eq"] : List String).length :=
  ⟨rfl, by decide, by decide, by decide,
   c6_unsupported_class_error [] bad_data ["Eq"] ["Ord"] "Show" rfl (by decide)
     (by decide) (by decide)⟩

lemma arg_iterator_via_try (t : Ty) :
    arg_iterator t
      = (match try_get_function t with
         | some p => p.1 :: arg_iterator p.2
         | none => []) := by
  cases t with
  | TypeApplication x b =>
    cases x with
    | TypeApplication c arg =>
      cases c with
      | TypeConstructor op =>
        by_cases h : op.name = "->" <;>
          simp [arg_iterator, try_get_function, h]
      | TypeVariable v => simp [arg_iterator, try_get_function]
      | TypeApplication u w => simp [arg_iterator, try_get_function]
      | Generic v => simp [arg_iterator, try_get_function]
    | TypeVariable v => simp [arg_iterator, try_get_function]
    | TypeConstructor c => simp [arg_iterator, try_get_function]
    | Generic v => simp [arg_iterator, try_get_function]
  | TypeVariable v => simp [arg_iterator, try_get_function]
  | TypeConstructor c => simp [arg_iterator, try_get_function]
  | Generic v => simp [arg_iterator, try_get_function]

lemma try_get_function_iff (t a r : Ty) :
    try_get_function t = some (a, r)
      ↔ ∃ op : TypeConstructor,
          t = Ty.TypeApplication (Ty.TypeApplication (Ty.TypeConstructor op) a) r
            ∧ op.name = "->" := by
  constructor
  · intro h
    cases t with
    | TypeApplication x b =>
      cases x with
      | TypeApplication c arg =>
        cases c with
        | TypeConstructor op =>
          simp only [try_get_function] at h
          split at h
          · obtain ⟨h1, h2⟩ := Prod.mk.inj (Option.some.inj h)
            subst h1; subst h2
            rename_i hop
            exact ⟨op, rfl, hop⟩
          · exact absurd h (by simp)
        | TypeVariable v => simp [try_get_function] at h
        | TypeApplication u w => simp [try_get_function] at h
        | Generic v => simp [try_get_function] at h
      | TypeVariable v => simp [try_get_function] at h
      | TypeConstructor c => simp [try_get_function] at h
      | Generic v => simp [try_get_function] at h
    | TypeVariable v => simp [try_get_function] at h
    | TypeConstructor c => simp [try_get_function] at h
    | Generic v => simp [try_get_function] at h
  · rintro ⟨op, rfl, hname⟩
    simp [try_get_function, hname]

lemma arg_iterator_foldr (res : Ty) (h : try_get_function res = none) :
    ∀ args : List Ty, arg_iterator (args.foldr function_type_ res) = args := by
  intro args
  induction args with
  | nil =>
    rw [List.foldr_nil, arg_iterator_via_try, h]
  | cons a args ih =>
    rw [List.foldr_cons, arg_iterator_via_try]
    have harrow : try_get_function (function_type_ a (args.foldr function_type_ res))
        = some (a, args.foldr function_type_ res) := rfl
    rw [harrow]
    simp [ih]

/-- C9: `try_get_function` succeeds exactly on the two-level application
pattern headed by the `->` constructor; the argument-peeling iterator is
the repeated application of `try_get_function`, so on a curried field type
it yields the field types left to right, stops at the first non-arrow
residue, and its length is the field arity that `match_same_constructors`
uses to build constructor patterns. -/
theorem c9_try_get_function_iter :
    (∀ t a r : Ty, try_get_function t = some (a, r)
        ↔ ∃ op : TypeConstructor,
            t = Ty.TypeApplication (Ty.TypeApplication (Ty.TypeConstructor op) a) r
              ∧ op.name = "->")
      ∧ (∀ t : Ty, arg_iterator t
          = (match try_get_function t with
             | some p => p.1 :: arg_iterator p.2
             | none => []))
      ∧ (∀ res : Ty, try_get_function res = none →
          ∀ args : List Ty, arg_iterator (args.foldr function_type_ res) = args)
      ∧ (∀ (s : Nat) (c : Constructor) (id_r : CId)
            (f : Nat → List CId → List CId → CExpr × Nat),
          ∃ (ci : CId) (args : List CId),
            (constructor_alt s c id_r f).1.1 = CPattern.ConstructorPattern ci args
              ∧ args.length = (arg_iterator c.typ.value).length) :=
  ⟨try_get_function_iff, arg_iterator_via_try, arg_iterator_foldr,
   fun s c id_r f => ⟨ctor_id c, _, rfl, fresh_ids_length _ _ _⟩⟩

/-- Witness for C9's peeling clause on `Int -> Bool -> Pair`. -/
theorem c9_try_get_function_iter_witness :
    try_get_function (Ty.new_op "Pair" []) = none
      ∧ arg_iterator ([int_type, bool_type].foldr function_type_ (Ty.new_op "Pair" []))
          = [int_type, bool_type] :=
  ⟨by decide,
   c9_try_get_function_iter.2.2.1 (Ty.new_op "Pair" []) (by decide) [int_type, bool_type]⟩

/-- Formalisation of the spec's description of the tuple variables: the
`i`-th schematic variable is the single-letter `Generic` variable starting
from `a`. -/
def spec_tuple_var (i : Nat) : Ty :=
  .Generic { id := String.singleton (Char.ofNat (97 + i)), kind := .StarKind, age := 0 }

/-- Formalisation of the spec's description of `tuple_type`'s type: the
curried function type taking the `n` schematic variables in order and
ending in the tuple constructor applied to those same variables. -/
def spec_tuple_ty (n : Nat) : Ty :=
  (List.range n).foldr (fun i acc => function_type_ (spec_tuple_var i) acc)
    (Ty.new_op (tuple_name n) ((List.range n).map spec_tuple_var))

set_option maxRecDepth 10000 in
/-- C10: for `n < 26`, `tuple_type n` returns the display name made of an
opening parenthesis, `n - 1` commas and a closing parenthesis, paired with
the curried function type over `n` pairwise distinct single-letter
`Generic` variables ending in the tuple constructor applied to the same
variables; for `n ≥ 26` the assertion fails (modelled as `none`). -/
theorem c10_tuple_type_spec (n : Nat) :
    (n < 26 →
        tuple_type n
            = some ("(" ++ String.mk (List.replicate (n - 1) ',') ++ ")", spec_tuple_ty n)
          ∧ ((List.range n).map spec_tuple_var).Nodup)
      ∧ (26 ≤ n → tuple_type n = none) := by
  constructor
  · intro h
    have H : ∀ m, m < 26 →
        tuple_type m
            = some ("(" ++ String.mk (List.replicate (m - 1) ',') ++ ")", spec_tuple_ty m)
          ∧ ((List.range m).map spec_tuple_var).Nodup := by decide
    exact H n h
  · intro h
    simp only [tuple_type]
    rw [if_neg (by omega)]

/-- Witness for C10 at `n = 3` and `n = 30`. -/
theorem c10_tuple_type_spec_witness :
    (tuple_type 3 = some ("(" ++ String.mk (List.replicate 2 ',') ++ ")", spec_tuple_ty 3)
        ∧ ((List.range 3).map spec_tuple_var).Nodup)
      ∧ tuple_type 30 = none :=
  ⟨(c10_tuple_type_spec 3).1 (by decide), (c10_tuple_type_spec 30).2 (by decide)⟩
